import Mathlib

/-!
Verification development for the HTML table rendering core
(`src/core_to_be_split.py`).

The Python core is shallowly embedded below:

* cell values are modelled as `Option String` (`none` is Python `None`;
  `str(val)` is already applied to every other scalar, so a numeric cell is
  modelled by its decimal string);
* the markdown renderer (`markdown_to_html` / `MarkdownRenderer.render`) is a
  parameter `md : String → String`; it is total here, so the
  exception-degradation branches of the renderer never fire in the model;
* the conversion helpers `convert_bullets_to_ul`, `_normalize_list_markers`,
  `_unescape_brackets_outside_code`, `_sanitize_html_whitelist` and
  `_detect_column_types` are the fallback implementations that live in the
  core file itself (identity functions, resp. the constant `"text"` type);
* the shared cancellation flag is modelled as `cancel : Nat → Bool`, giving
  the value the renderer observes at its k-th row-boundary check;
* the filesystem is an association list from path to file content, and the
  atomic writer `_default_write_atomic` is modelled by its two outcomes
  (writer ran to completion / writer raised after writing a residue to the
  temporary file);
* the time-, asset- and pandas-dependent pieces of the final document
  (`_build_head_parts`, `_build_sticky_header_html`,
  `_build_bottom_script_parts`, `df.to_html`) are opaque inputs collected in
  an `Env` value: no claim inspects their content.

The row stream adapter `_take_and_stream` is code of this repository that is
not part of the core file (the core only holds a stub fallback); it is
modelled from the spec, see `_take_and_stream_sample` / `_take_and_stream_rest`.
-/

namespace CoreRender

set_option maxRecDepth 100000

/-- Python line counting: iterating an open text file yields one line per
`'\n'` plus a final unterminated line, so `final_count` in
`_render_table_fragment_to_file` (lines 650-657) is the number of newlines
plus one when the content does not end in a newline (0 for empty content). -/
def pyLineCount (s : String) : Nat :=
  s.data.count '\n' + (if s.data ≠ [] ∧ s.data.getLast? ≠ some '\n' then 1 else 0)

/-- Python `str.strip()` restricted to ASCII whitespace. -/
def pyStrip (s : String) : String :=
  ⟨((s.data.dropWhile Char.isWhitespace).reverse.dropWhile Char.isWhitespace).reverse⟩

/-- Python `str.lower()` (basic latin, as in the ids this core produces). -/
def pyLower (s : String) : String :=
  ⟨s.data.map Char.toLower⟩

/-- Python `str.upper()` (basic latin). -/
def pyUpper (s : String) : String :=
  ⟨s.data.map Char.toUpper⟩

/-- `html.escape` / the escaping performed by `_attr_escape`: `&`, `<`, `>`,
`"` and `'` become entities (`&` is replaced first in the source, which is
exactly the character-wise map below). -/
def escapeChar (c : Char) : List Char :=
  if c = '&' then "&amp;".data
  else if c = '"' then "&quot;".data
  else if c = Char.ofNat 39 then "&#x27;".data
  else if c = '<' then "&lt;".data
  else if c = '>' then "&gt;".data
  else [c]

/-- `html.escape(s)` with the default `quote=True`. -/
def htmlEscape (s : String) : String :=
  ⟨(s.data.map escapeChar).flatten⟩

/-- `_attr_escape` (core lines 199-210): same replacement set as
`html.escape`, applied in source order which equals the character-wise map. -/
def _attr_escape (s : String) : String :=
  ⟨(s.data.map escapeChar).flatten⟩

/-- Inverse of the escaping above, used for `html.unescape` in this model.
The Python function also decodes every other named entity; the strings this
core unescapes only contain entities produced by `html.escape`/`_attr_escape`.
The fuel argument (initialized to the list length, enough since every step
consumes at least one character) keeps the recursion structural. -/
def htmlUnescapeGo : Nat → List Char → List Char
  | 0, cs => cs
  | _ + 1, [] => []
  | fuel + 1, c :: cs =>
    if c = '&' then
      if "amp;".data.isPrefixOf cs then '&' :: htmlUnescapeGo fuel (cs.drop 4)
      else if "quot;".data.isPrefixOf cs then '"' :: htmlUnescapeGo fuel (cs.drop 5)
      else if "#x27;".data.isPrefixOf cs then Char.ofNat 39 :: htmlUnescapeGo fuel (cs.drop 5)
      else if "lt;".data.isPrefixOf cs then '<' :: htmlUnescapeGo fuel (cs.drop 3)
      else if "gt;".data.isPrefixOf cs then '>' :: htmlUnescapeGo fuel (cs.drop 3)
      else c :: htmlUnescapeGo fuel cs
    else c :: htmlUnescapeGo fuel cs

/-- `html.unescape` on a character list. -/
def htmlUnescape (cs : List Char) : List Char :=
  htmlUnescapeGo cs.length cs

/-- String wrapper for `htmlUnescape`. -/
def htmlUnescapeStr (s : String) : String :=
  ⟨htmlUnescape s.data⟩

/-- Find the closing `>` of a tag: the remainder after the first `'>'`. -/
def findTagEnd : List Char → Option (List Char)
  | [] => none
  | c :: rest => if c = '>' then some rest else findTagEnd rest

/-- `re.sub(r'<[^>]+>', '', s)`: remove every tag, i.e. every `<`, at least
one non-`>` character, then `>`; an unmatched `<` is kept literally.  The
fuel argument (initialized to the list length, enough since every step
consumes at least one character) keeps the recursion structural. -/
def stripTagsGo : Nat → List Char → List Char
  | 0, cs => cs
  | _ + 1, [] => []
  | fuel + 1, c :: rest =>
    if c = '<' then
      match rest with
      | [] => ['<']
      | d :: rest2 =>
        if d = '>' then '<' :: stripTagsGo fuel rest
        else
          match findTagEnd (d :: rest2) with
          | some after => stripTagsGo fuel after
          | none => '<' :: stripTagsGo fuel rest
    else c :: stripTagsGo fuel rest

/-- Tag removal on a character list. -/
def stripTags (cs : List Char) : List Char :=
  stripTagsGo cs.length cs

/-- String wrapper for `stripTags`. -/
def stripTagsStr (s : String) : String :=
  ⟨stripTags s.data⟩

/-- Replace every maximal run of characters satisfying `p` by the single
character `r` (the effect of `re.sub(pattern+, r, s)` for a character
class); the Bool argument tracks whether the scan is inside a run. -/
def subRunsGo (p : Char → Bool) (r : Char) : Bool → List Char → List Char
  | _, [] => []
  | inRun, c :: cs =>
    if p c then
      (if inRun then subRunsGo p r true cs else r :: subRunsGo p r true cs)
    else c :: subRunsGo p r false cs

/-- Run replacement, starting outside a run. -/
def subRunsWith (p : Char → Bool) (r : Char) (cs : List Char) : List Char :=
  subRunsGo p r false cs

/-- Characters kept by `_sanitize_id`'s character class `[a-zA-Z0-9\-_]`. -/
def idAllowed (c : Char) : Bool :=
  c.isAlphanum || c = '-' || c = '_'

/-- Strip leading and trailing `'-'` (Python `str.strip('-')`). -/
def stripDashes (cs : List Char) : List Char :=
  ((cs.dropWhile (· = '-')).reverse.dropWhile (· = '-')).reverse

/-- Core of `_sanitize_id` after `strip().lower()`: collapse disallowed runs
to `-`, collapse `-{2,}` runs, strip `-` at the ends.  (The second `re.sub`
only rewrites runs of length ≥ 2; collapsing all runs gives the same string.) -/
def sanitizeIdCore (cs : List Char) : List Char :=
  stripDashes (subRunsWith (· = '-') '-' (subRunsWith (fun c => ¬ idAllowed c) '-' cs))

/-- `_sanitize_id` (core lines 85-93).  The second argument models the
`f"id-{idx or 0}"` fallback (the call sites pass `idx` or `f"{idx}-{r_idx}"`). -/
def _sanitize_id (x : String) (fb : String) : String :=
  let s : String := ⟨sanitizeIdCore (pyLower (pyStrip x)).data⟩
  if s = "" then "id-" ++ fb else s

/-- Number of whitespace-separated words, Python `len(s.split())`; the Bool
argument tracks whether the scan is inside a word. -/
def pyWordsGo : Bool → List Char → Nat
  | _, [] => 0
  | inWord, c :: cs =>
    if c.isWhitespace then pyWordsGo false cs
    else if inWord then pyWordsGo true cs else 1 + pyWordsGo true cs

/-- Word count, starting outside a word. -/
def pyWordsCount (cs : List Char) : Nat :=
  pyWordsGo false cs

/-- `re.match(r'^\s*\d+[\.\)]', s)`: optional whitespace, at least one digit,
then `.` or `)`. -/
def startsWithEnum (cs : List Char) : Bool :=
  let cs1 := cs.dropWhile Char.isWhitespace
  let ds := cs1.takeWhile Char.isDigit
  let rest := cs1.dropWhile Char.isDigit
  ¬ ds.isEmpty && (rest.head? = some '.' || rest.head? = some ')')

/-- The section-heading heuristic of `_render_table_fragment_to_file`
(lines 623-626): an enumerator prefix, or short all-uppercase text of at
most 8 words and more than 2 characters. -/
def isHeadingTxt (plain : String) : Bool :=
  startsWithEnum plain.data ||
    (plain.length < 120 && (pyUpper plain == plain) &&
      pyWordsCount plain.data ≤ 8 && plain.length > 2)

/-- `_safe_caption` (core lines 258-268): strip, reject empty, remove tags,
escape. -/
def _safe_caption (s : String) : String :=
  let s1 := pyStrip s
  if s1 = "" then "" else htmlEscape (stripTagsStr s1)

/-- Case-insensitive literal match of a lowercase pattern at the head. -/
def lcMatch : List Char → List Char → Bool
  | [], _ => true
  | _ :: _, [] => false
  | p :: ps, c :: cs => (c.toLower = p) && lcMatch ps cs

/-- Does `re.search(r'<tbody>\s*<tr', content, re.IGNORECASE)` match at this
position? -/
def tbodyTrAt (cs : List Char) : Bool :=
  lcMatch "<tbody>".data cs &&
    lcMatch "<tr".data ((cs.drop 7).dropWhile Char.isWhitespace)

/-- Search the whole character list for the pattern above. -/
def containsTbodyTr : List Char → Bool
  | [] => false
  | c :: cs => tbodyTrAt (c :: cs) || containsTbodyTr cs

/-- `_frag_contains_rows` (render_html lines 1258-1261): the fragment
content has a `<tbody>` directly followed (up to whitespace) by a `<tr`. -/
def _frag_contains_rows (content : String) : Bool :=
  containsTbodyTr content.data

/-- A warning dict `{level, msg, table?, row?, col?}`. -/
structure Warning where
  level : String
  msg : String
  table : Option Nat := none
  row : Option Nat := none
  col : Option Nat := none
deriving DecidableEq, Repr

/-- The `RenderConfig` fields the claims depend on (fallback class,
core lines 19-35); the cancellation flag is passed as a separate argument
(see `rowLoop`), and callback/asset/logging fields are not modelled. -/
structure RenderConfig where
  table_row_limit : Nat := 0
  split_threshold : Nat := 0
  max_workers : Nat := 4
deriving DecidableEq, Repr

/-- A `TableLike`: optional `title`/`name` attributes, column names, and the
row sequence produced by `itertuples`.  A cell is `none` for Python `None`,
otherwise the string `str(val)` of the scalar. -/
structure Table where
  title : Option String := none
  name : Option String := none
  cols : List String
  rows : List (List (Option String))
deriving DecidableEq, Repr

/-- Fallback `convert_bullets_to_ul` (core line 114): identity. -/
def convert_bullets_to_ul (s : String) : String := s

/-- Fallback `_normalize_list_markers` (core line 115): identity. -/
def _normalize_list_markers (s : String) : String := s

/-- Fallback `_unescape_brackets_outside_code` (core line 116): identity. -/
def _unescape_brackets_outside_code (s : String) : String := s

/-- Fallback `_sanitize_html_whitelist` (core lines 78-83): identity. -/
def _sanitize_html_whitelist (s : String) : String := s

/-- Fallback `_detect_column_types` (core line 117): `["text"] * len(cols)`
(the sample argument is ignored by the fallback). -/
def _detect_column_types (_sample : List (List (Option String))) (cols : List String) :
    List String :=
  cols.map (fun _ => "text")

/-- Modelled from the spec (§4.1 Row Stream Adapter): the eagerly
materialized bounded sample of `_take_and_stream(rows, n)` is the first `n`
rows.  The implementation lives in the repository's `convert` module, which
is not part of the core file (the core's import fallback is a stub). -/
def _take_and_stream_sample (rows : List (List (Option String))) (n : Nat) :
    List (List (Option String)) :=
  rows.take n

/-- Modelled from the spec (§4.1): the returned row sequence yields the
already-sampled and the remaining rows in original order exactly once,
i.e. all rows in order. -/
def _take_and_stream_rest (rows : List (List (Option String))) :
    List (List (Option String)) :=
  rows

/-- Result of `_derive_titles`. -/
structure Titles where
  title_text : String
  display_title : String
  title_id : String
  title_html : String
deriving DecidableEq, Repr

/-- 120-character display truncation of `_derive_titles` (core line 475). -/
def truncateTitle (s : String) : String :=
  if s.length ≤ 120 then s else (⟨s.data.take 117⟩ : String) ++ "..."

/-- `re.sub(r'\s+', ' ', s)`. -/
def collapseWs (s : String) : String :=
  ⟨subRunsWith Char.isWhitespace ' ' s.data⟩

/-- Title from `df.name` (truthiness check, then `strip`). -/
def titleFromName (t : Table) : String :=
  match t.name with
  | some s => if s ≠ "" then pyStrip s else ""
  | none => ""

/-- Title from `df.title`, else `df.name` (core lines 443-449).  The empty
string stands for Python `None` downstream, since the next step only checks
`if not title_text`. -/
def titleFromAttrs (t : Table) : String :=
  match t.title with
  | some s => if s ≠ "" then pyStrip s else titleFromName t
  | none => titleFromName t

/-- The first-sampled-row title candidate (core lines 451-463):
`first[0]` when the row is non-empty; if that is `None`, the first value
that is neither `None` nor `""`. -/
def firstRowTitleCand (first : List (Option String)) : Option String :=
  match first.head? with
  | none => none
  | some (some v) => some v
  | some none =>
    match (first.filter (fun v => ¬ (v = none ∨ v = some ""))).head? with
    | some (some v) => some v
    | _ => none

/-- `_derive_titles` (core lines 438-481). -/
def _derive_titles (md : String → String) (idx : Nat) (cols : List String)
    (sample : List (List (Option String))) (t : Table) : Titles :=
  let a := titleFromAttrs t
  let b :=
    if a = "" then
      match sample.head? with
      | some first =>
        match firstRowTitleCand first with
        | some v => pyStrip v
        | none => ""
      | none => ""
    else a
  let c := if b = "" then (match cols.head? with | some c0 => pyStrip c0 | none => "") else b
  let d := if c = "" then "Table " ++ toString idx else c
  let tt := pyStrip (collapseWs d)
  let disp := truncateTitle tt
  { title_text := tt
    display_title := disp
    title_id := _sanitize_id disp (toString idx)
    title_html := md disp }

/-- Cell pipeline of `_render_table_fragment_to_file` (lines 584-611) with a
total renderer: markdown render of the converted source, bracket-unescape and
whitelist (identities), and the escape fallback when the result is empty. -/
def cellHtmlCore (md : String → String) (val : Option String) : String :=
  let raw := val.getD ""
  let cellSrc := _normalize_list_markers (convert_bullets_to_ul raw)
  let h1 := md cellSrc
  let h2 := _unescape_brackets_outside_code h1
  let h3 := _sanitize_html_whitelist h2
  if h3 = "" then htmlEscape (val.getD "") else h3

/-- Section anchor id (core line 628). -/
def sectionId (tableId : String) (plain : String) (idx rIdx : Nat) : String :=
  _sanitize_id (tableId ++ "-section-" ++ plain) (toString idx ++ "-" ++ toString rIdx)

/-- First-column section-heading wrapping (core lines 617-630). -/
def cellWithHeading (md : String → String) (tableId : String) (idx rIdx colI : Nat)
    (row0raw : String) (val : Option String) : String :=
  let ch := cellHtmlCore md val
  if colI = 0 ∧ row0raw ≠ "" then
    let plain := pyStrip (stripTagsStr ch)
    if isHeadingTxt plain then
      "<div class=\"section-heading\" id=\"" ++ sectionId tableId plain idx rIdx ++ "\">"
        ++ ch ++ "</div>"
    else ch
  else ch

/-- One `<td>` (core line 631). -/
def tdHtml (label : String) (inner : String) : String :=
  "<td data-label=\"" ++ label ++ "\">" ++ inner ++ "</td>"

/-- The cells of one row, with their 0-based column index.  The data label is
`header_plain_labels[col_i]` when in range, else the escaped column name /
empty string (both reduce to `""` here since the label list has exactly one
entry per column). -/
def renderCells (md : String → String) (tableId : String) (idx rIdx : Nat)
    (labels : List String) (row0raw : String) :
    Nat → List (Option String) → List String
  | _, [] => []
  | colI, v :: vs =>
    tdHtml (labels.getD colI "") (cellWithHeading md tableId idx rIdx colI row0raw v)
      :: renderCells md tableId idx rIdx labels row0raw (colI + 1) vs

/-- `first_col_raw` (core lines 577-582): `""` both for a `None` first cell
and for an empty row (either way the truthiness test fails the same way). -/
def firstColRaw (row : List (Option String)) : String :=
  match row.head? with
  | some v => v.getD ""
  | none => ""

/-- The `<tr>` written for one data row (core line 632). -/
def rowPieceHtml (md : String → String) (tableId : String) (idx : Nat)
    (labels : List String) (rIdx : Nat) (row : List (Option String)) : String :=
  "<tr>" ++ String.join (renderCells md tableId idx rIdx labels (firstColRaw row) 0 row)
    ++ "</tr>"

/-- State after the row loop: final `r_idx`, written `<tr>` pieces, warnings. -/
structure LoopOut where
  r_idx : Nat
  pieces : List String
  warnings : List Warning
deriving DecidableEq, Repr

/-- The cancellation warning (core line 569). -/
def cancelWarning (idx : Nat) : Warning :=
  { level := "warn", msg := "canceled", table := some idx }

/-- The row-limit warning (core line 573). -/
def limitWarning (idx r : Nat) : Warning :=
  { level := "warn", msg := "table_row_limit exceeded", table := some idx, row := some r }

/-- The row loop of `_render_table_fragment_to_file` (lines 565-632):
check the cancel flag at the row boundary, increment `r_idx`, check the row
limit, then render and write the row.  `cancel r` is the flag value observed
at the check made after `r` processed rows. -/
def rowLoop (md : String → String) (tableId : String) (idx : Nat) (labels : List String)
    (limit : Nat) (cancel : Nat → Bool) :
    Nat → List (List (Option String)) → LoopOut
  | r, [] => { r_idx := r, pieces := [], warnings := [] }
  | r, row :: rest =>
    if cancel r then { r_idx := r, pieces := [], warnings := [cancelWarning idx] }
    else if limit ≠ 0 ∧ r + 1 > limit then
      { r_idx := r + 1, pieces := [], warnings := [limitWarning idx (r + 1)] }
    else
      let st := rowLoop md tableId idx labels limit cancel (r + 1) rest
      { r_idx := st.r_idx
        pieces := rowPieceHtml md tableId idx labels (r + 1) row :: st.pieces
        warnings := st.warnings }

/-- The row pieces produced when no break fires (reference list for lemmas). -/
def renderAllRows (md : String → String) (tableId : String) (idx : Nat)
    (labels : List String) : Nat → List (List (Option String)) → List String
  | _, [] => []
  | r, row :: rest =>
    rowPieceHtml md tableId idx labels (r + 1) row
      :: renderAllRows md tableId idx labels (r + 1) rest

/-- `table_id = _sanitize_id(f"Table{idx}", idx)` (core line 499). -/
def fragTableId (idx : Nat) : String :=
  _sanitize_id ("Table" ++ toString idx) (toString idx)

/-- `th_id = f'{table_id}-th-{i}'` (core line 546). -/
def thId (idx i : Nat) : String :=
  fragTableId idx ++ "-th-" ++ toString i

/-- One `<th>` header cell (core lines 545-561). -/
def thCellHtml (idx i : Nat) (colType col hdrHtml : String) : String :=
  "<th id=\"" ++ thId idx i ++ "\" class=\"col-" ++ colType
    ++ "\" data-table-index=\"" ++ toString (idx - 1)
    ++ "\" data-col-index=\"" ++ toString i
    ++ "\" role=\"button\" aria-label=\""
    ++ _attr_escape ("Sort by " ++ htmlEscape (stripTagsStr col)) ++ "\">"
    ++ "<div class=\"th-with-sort\">"
    ++ "<div class=\"th-label\">" ++ hdrHtml ++ "</div>"
    ++ "<button type=\"button\" class=\"sort-btn sort-state-0\" data-table-index=\""
    ++ toString (idx - 1) ++ "\" data-col-index=\"" ++ toString i
    ++ "\" title=\"Toggle sort\" aria-label=\"Toggle sort\"><span class=\"sort-icon\" aria-hidden=\"true\"></span></button>"
    ++ "</div>" ++ "</th>"

/-- All header cells in column order; `col_types[i]` is `"text"` for every
column (fallback `_detect_column_types`) and `safe_headers_html[i] = md(col)`. -/
def thCellsGo (md : String → String) (idx : Nat) : Nat → List String → List String
  | _, [] => []
  | i, c :: cs => thCellHtml idx i "text" c (md c) :: thCellsGo md idx (i + 1) cs

/-- Fragment writer output before the `<thead>`: wrapper, title, header
controls, table container (core lines 521-537). -/
def fragOpenHtml (idx : Nat) (tableId titleId titleHtml : String) : String :=
  "<div class=\"table-wrapper\" id=\"" ++ tableId ++ "\">"
  ++ "<h3 id=\"" ++ titleId ++ "\">" ++ titleHtml ++ "</h3>"
  ++ "<div class=\"table-header-wrapper header-controls\">"
  ++ "<div class=\"copy-buttons\">"
  ++ "<button type=\"button\" class=\"copy-plain-btn\" data-table-index=\"" ++ toString (idx - 1)
  ++ "\" aria-label=\"Copy table as plain text\">Copy Plain Table</button>"
  ++ "<button type=\"button\" class=\"copy-md-btn\" data-table-index=\"" ++ toString (idx - 1)
  ++ "\" aria-label=\"Copy table as markdown\">Copy Markdown Table</button>"
  ++ "</div>"
  ++ "<div class=\"header-actions\">"
  ++ "<button type=\"button\" class=\"toggle-table-btn\" data-table-index=\"" ++ toString (idx - 1)
  ++ "\" aria-label=\"Toggle table\">Collapse Table</button>"
  ++ "</div>"
  ++ "</div>"
  ++ "<div class=\"table-container\">"

/-- Caption (if any), `<thead>` and the opening `<tbody>` (core lines 538-562). -/
def fragTheadHtml (md : String → String) (idx : Nat) (displayTitle : String)
    (cols : List String) : String :=
  (if _safe_caption displayTitle ≠ "" then
      "<table><caption>" ++ _safe_caption displayTitle ++ "</caption><thead><tr>"
    else "<table><thead><tr>")
  ++ String.join (thCellsGo md idx 0 cols)
  ++ "</tr></thead><tbody>"

/-- Everything the fragment writer emits before the data rows. -/
def fragBeforeRows (md : String → String) (idx : Nat) (t : Table) : String :=
  fragOpenHtml idx (fragTableId idx)
    (_derive_titles md idx t.cols (_take_and_stream_sample t.rows 100) t).title_id
    (_derive_titles md idx t.cols (_take_and_stream_sample t.rows 100) t).title_html
  ++ fragTheadHtml md idx
      (_derive_titles md idx t.cols (_take_and_stream_sample t.rows 100) t).display_title
      t.cols

/-- The trailing writer output: close `tbody`/`table`/container, the
`row-count` div, the `table-summary` footer showing the final `r_idx`, and
the wrapper close (core lines 636-639). -/
def fragCloseHtml (rIdx ncols : Nat) : String :=
  "</tbody></table></div>"
  ++ "<div class=\"row-count\"></div>"
  ++ "<div class=\"table-summary\">Rows: " ++ toString rIdx ++ " | Columns: "
  ++ toString ncols ++ "</div>"
  ++ "</div>"

/-- `header_plain_labels` (core lines 508-518). -/
def fragLabels (md : String → String) (cols : List String) : List String :=
  cols.map (fun c => _attr_escape (pyStrip (htmlUnescapeStr (stripTagsStr (md c)))))

/-- The result of rendering one fragment: the file content, the written row
pieces, the final `r_idx`, the re-read line count (the third component of the
Python return tuple), the warnings, and the title metadata that
`render_html` re-derives from the content with its `<h3>` regex (modelled on
the writer's known output shape, lines 1220-1235). -/
structure FragResult where
  idx : Nat
  content : String
  rowPieces : List String
  writtenRows : Nat
  r_idx : Nat
  lineCount : Nat
  warnings : List Warning
  title_id : String
  title_text : String

/-- `_render_table_fragment_to_file` (core lines 483-659) for a total
renderer: the fragment file holds the writer output (written atomically, so
`content` is the file's final content), `lineCount` is `final_count` from
re-reading the file, and the warnings are those appended by the row loop. -/
def _render_table_fragment_to_file (md : String → String) (cfg : RenderConfig)
    (cancel : Nat → Bool) (idx : Nat) (t : Table) : FragResult :=
  let lp := rowLoop md (fragTableId idx) idx (fragLabels md t.cols)
    cfg.table_row_limit cancel 0 (_take_and_stream_rest t.rows)
  let content := fragBeforeRows md idx t ++ String.join lp.pieces
    ++ fragCloseHtml lp.r_idx t.cols.length
  let ti := _derive_titles md idx t.cols (_take_and_stream_sample t.rows 100) t
  let extractedId := if ti.title_id = "" then "Table" ++ toString idx else ti.title_id
  let extractedText :=
    let s := htmlUnescapeStr (pyStrip (stripTagsStr ti.title_html))
    if s = "" then "Table " ++ toString idx else s
  { idx := idx, content := content, rowPieces := lp.pieces
    writtenRows := lp.pieces.length, r_idx := lp.r_idx
    lineCount := pyLineCount content, warnings := lp.warnings
    title_id := extractedId, title_text := extractedText }

/-- The filesystem: an association list path → content, most recent binding
first. -/
abbrev FS := List (String × String)

/-- Path lookup. -/
def lookupF : FS → String → Option String
  | [], _ => none
  | (k, v) :: fs, p => if k = p then some v else lookupF fs p

/-- `open(path, "w")` + write: bind `p` to `c`. -/
def setF (fs : FS) (p c : String) : FS := (p, c) :: fs

/-- `os.remove`-like deletion (the source of an `os.replace`). -/
def delF : FS → String → FS
  | [], _ => []
  | (k, v) :: fs, p => if k = p then delF fs p else (k, v) :: delF fs p

/-- `_default_write_atomic` (core lines 128-132), modelled by the outcome of
the writer callback: when the writer completes (`ok = true`) the temporary
sibling is written and `os.replace` moves it over the destination; when the
writer raises, whatever it wrote (`residue`) stays in the temporary file and
the destination binding is untouched. -/
def _default_write_atomic (fs : FS) (path : String) (ok : Bool)
    (content residue : String) : FS :=
  if ok then delF (setF (setF fs (path ++ ".tmp") content) path content) (path ++ ".tmp")
  else setF fs (path ++ ".tmp") residue

/-- The opaque inputs of a `render_html` run: the head / sticky-header /
bottom-script markup (time- and asset-dependent, built by
`_build_head_parts` etc.), the pandas `df.to_html` tail used by the inline
fallback, and the outcome of the final document writer. -/
structure Env where
  headPieces : List String
  stickyHtml : String
  bottomPieces : List String
  inlineTail : Nat → String
  writeOk : Bool
  writeErr : String
  writeResidue : String

/-- Fallback warning when no fragments were produced (line 1266). -/
def warnNoFragments : Warning :=
  { level := "warn", msg := "no fragments produced; falling back to inline rendering" }

/-- Fallback warning when fragments exist but none contains rows (line 1271). -/
def warnNoRows : Warning :=
  { level := "warn", msg := "fragments contain no rows; falling back to inline rendering" }

/-- The error warning of the final-write failure path (line 1350). -/
def writeFailWarning (e : String) : Warning :=
  { level := "error", msg := "write_failed: " ++ e }

/-- The dict returned by `render_html`: `output`/`parts` are `none` when the
corresponding key is absent, `tables`/`rows` are `none` when the value is
Python `None`. -/
structure RenderResultM where
  warnings : List Warning
  tables : Option Nat
  rows : Option Nat
  output : Option String
  parts : Option (List String)
deriving DecidableEq, Repr

/-- `worker_count = max(1, min(len(tables_list) or 1, cfg.max_workers))`
(line 1187). -/
def workerCount (nTables : Nat) (cfg : RenderConfig) : Nat :=
  max 1 (min (if nTables = 0 then 1 else nTables) cfg.max_workers)

/-- One fragment render per table, indices dense `1..N` in input order (the
thread pool completes them in arbitrary order; `render_html` re-keys them by
index, so the index-ordered list is the collected `fragments_map`). -/
def renderFragments (md : String → String) (cfg : RenderConfig) (cancel : Nat → Bool) :
    Nat → List Table → List FragResult
  | _, [] => []
  | i, t :: ts =>
    _render_table_fragment_to_file md cfg cancel i t
      :: renderFragments md cfg cancel (i + 1) ts

/-- One table-of-contents entry (lines 1288, 1313). -/
def tocLink (titleId titleText : String) : String :=
  "<li class=\"toc-item\"><a class=\"toc-link\" href=\"#" ++ htmlEscape titleId
    ++ "\">" ++ htmlEscape titleText ++ "</a></li>"

/-- The assembled table of contents (line 1316). -/
def tocHtml (items : List String) : String :=
  "<div id=\"tocBar\" role=\"navigation\" aria-label=\"Table of contents\"><ul>"
    ++ String.intercalate "\n" items ++ "</ul></div>"

/-- The apostrophe character (used in source literals such as
`<meta charset='utf-8'>`). -/
def apos : Char := Char.ofNat 39

/-- The inline fallback piece for table `idx` (lines 1296-1297 with
`convert_render_table = None`): the literal `<h3>` heading followed by the
pandas `to_html` output, which `Env` supplies.  The `<h3>` regex applied to
this piece matches the literal heading first, so the fallback TOC entry is
`Table{idx}` / `Table {idx}`. -/
def inlinePieceFull (env : Env) (idx : Nat) : String :=
  "<h3 id=" ++ String.singleton apos ++ "Table" ++ toString idx ++ String.singleton apos
    ++ ">Table " ++ toString idx ++ "</h3>\n" ++ env.inlineTail idx

/-- Inline fallback pieces for all tables, 1-based. -/
def inlinePiecesGo (env : Env) : Nat → List Table → List String
  | _, [] => []
  | i, _ :: ts => inlinePieceFull env i :: inlinePiecesGo env (i + 1) ts

/-- Fallback-path TOC entries (lines 1304-1313). -/
def inlineTocGo : Nat → List Table → List String
  | _, [] => []
  | i, _ :: ts =>
    tocLink ("Table" ++ toString i) ("Table " ++ toString i) :: inlineTocGo (i + 1) ts

/-- `f.write(part); f.write("\n")` over a list of parts. -/
def joinLn (l : List String) : String :=
  String.join (l.map (fun s => s ++ "\n"))

/-- Trace of the non-split path of `render_html` (lines 1176-1377). -/
structure RenderTrace where
  workerCount : Nat
  fragments : List FragResult
  needFallback : Bool
  warningsBeforeWrite : List Warning
  tocItems : List String
  bodyHtml : String
  document : String
  result : RenderResultM
  fsOut : FS

/-- The non-split path of `render_html`: render all fragments, accumulate
their warnings (index order stands in for completion order; no claim depends
on the interleaving), sum the re-read line counts into `total_rows`, decide
the fallback, assemble the document and write it atomically.  The initial
warning list is empty: the asset-handling warnings of lines 1016-1105 are
not modelled. -/
def renderMain (env : Env) (cfg : RenderConfig) (md : String → String)
    (cancel : Nat → Bool) (tables : List Table) (outPath : String) (fs : FS) :
    RenderTrace :=
  let fragments := renderFragments md cfg cancel 1 tables
  let fragWarnings := (fragments.map (fun fr => fr.warnings)).flatten
  let totalRows := (fragments.map (fun fr => fr.lineCount)).sum
  let nf : Bool :=
    fragments.isEmpty || fragments.all (fun fr => !(_frag_contains_rows fr.content))
  let fbWarns : List Warning :=
    if fragments.isEmpty then [warnNoFragments]
    else if fragments.all (fun fr => !(_frag_contains_rows fr.content)) then [warnNoRows]
    else []
  let w1 := fragWarnings ++ fbWarns
  let tocItems :=
    if nf then inlineTocGo 1 tables
    else fragments.map (fun fr => tocLink fr.title_id fr.title_text)
  let bodyHtml :=
    if nf then joinLn (inlinePiecesGo env 1 tables)
    else String.join (fragments.map (fun fr => fr.content))
  let document := joinLn env.headPieces ++ env.stickyHtml ++ "\n"
    ++ tocHtml tocItems ++ "\n" ++ bodyHtml ++ joinLn env.bottomPieces
    ++ "</div></body></html>\n"
  { workerCount := workerCount tables.length cfg
    fragments := fragments, needFallback := nf, warningsBeforeWrite := w1
    tocItems := tocItems, bodyHtml := bodyHtml, document := document
    result :=
      if env.writeOk then
        { warnings := w1, tables := some tables.length
          rows := some totalRows, output := some outPath, parts := none }
      else
        { warnings := w1 ++ [writeFailWarning env.writeErr], tables := none
          rows := none, output := none, parts := none }
    fsOut := _default_write_atomic fs outPath env.writeOk document env.writeResidue }

/-- Logical row count of a table (`for _ in df.itertuples(): cnt += 1`,
lines 1127-1134). -/
def tableRowCount (t : Table) : Nat := t.rows.length

/-- `total_rows = sum(row_counts)` (line 1135). -/
def totalRowCount (tables : List Table) : Nat :=
  (tables.map tableRowCount).sum

/-- The split-path dispatch condition of `render_html` (lines 1124 and
1136): the threshold is non-zero and the total logical row count exceeds it.
A recursive invocation on a group of tables re-evaluates this same
condition with the same config. -/
def takesSplitPath (cfg : RenderConfig) (tables : List Table) : Bool :=
  cfg.split_threshold ≠ 0 && totalRowCount tables > cfg.split_threshold

/-- The greedy grouping loop (lines 1137-1160): close the current non-empty
group before a table that would push it over the threshold, then append the
table to the (possibly fresh) group. -/
def splitGroupsAux {α : Type} (T : Nat) (rc : α → Nat) :
    List α → Nat → List α → List (List α)
  | [], _, cur => if cur.isEmpty then [] else [cur.reverse]
  | x :: xs, curRows, cur =>
    if curRows + rc x > T ∧ ¬ cur.isEmpty then
      cur.reverse :: splitGroupsAux T rc xs (rc x) [x]
    else splitGroupsAux T rc xs (curRows + rc x) (x :: cur)

/-- The partition produced by the split path. -/
def splitGroups {α : Type} (T : Nat) (rc : α → Nat) (xs : List α) : List (List α) :=
  splitGroupsAux T rc xs 0 []

/-- Split a path into `Path.stem` and `Path.suffix` (paths are modelled
without directory components). -/
def lastDotSplit (cs : List Char) : List Char × List Char :=
  let rev := cs.reverse
  let pre := rev.takeWhile (· ≠ '.')
  if pre.length = rev.length then (cs, [])
  else ((rev.drop (pre.length + 1)).reverse, '.' :: pre.reverse)

/-- `Path(p).stem`. -/
def pathStem (p : String) : String := ⟨(lastDotSplit p.data).1⟩

/-- `Path(p).suffix`. -/
def pathSuffix (p : String) : String := ⟨(lastDotSplit p.data).2⟩

/-- `f"{out_path.stem}_part{part_no}{out_path.suffix}"` (lines 1143, 1155). -/
def partName (stem suffix : String) (k : Nat) : String :=
  stem ++ "_part" ++ toString k ++ suffix

/-- The part file names for `n` groups, numbered from 1 in group order. -/
def partNames (stem suffix : String) (n : Nat) : List String :=
  (List.range n).map (fun i => partName stem suffix (i + 1))

/-- `f"{out_path.stem}_index.html"` (line 1166). -/
def indexName (stem : String) : String := stem ++ "_index.html"

/-- `f'<li><a href="{Path(p).name}">{Path(p).name}</a></li>'` (line 1163). -/
def linkItem (p : String) : String :=
  "<li><a href=\"" ++ p ++ "\">" ++ p ++ "</a></li>"

/-- The emitted index document (lines 1161-1164). -/
def indexHtmlDoc (parts : List String) : String :=
  "<!DOCTYPE html><html><head><meta charset=" ++ String.singleton apos ++ "utf-8"
    ++ String.singleton apos ++ "><title>Index</title></head><body><h1>Parts</h1><ul>"
    ++ String.join (parts.map linkItem) ++ "</ul></body></html>"

/-- The split path of `render_html` (lines 1124-1172): group the tables,
recursively render one part per group (the recursive calls write the part
files and are not tracked in `fs` here), write the index document atomically
and return `{warnings, tables, rows, parts}` — note the absence of an
`output` key and that `rows` is the logical total. -/
def splitResult (cfg : RenderConfig) (tables : List Table) (outPath : String)
    (fs : FS) : RenderResultM × FS :=
  let stem := pathStem outPath
  let groups := splitGroups cfg.split_threshold tableRowCount tables
  let parts := partNames stem (pathSuffix outPath) groups.length
  ({ warnings := [], tables := some tables.length
     rows := some (totalRowCount tables), output := none, parts := some parts },
   _default_write_atomic fs (indexName stem) true (indexHtmlDoc parts) "")

/-- `render_html` (core lines 949-1377): dispatch between the split path and
the fragment/fallback path. -/
def render_html (env : Env) (cfg : RenderConfig) (md : String → String)
    (cancel : Nat → Bool) (tables : List Table) (outPath : String) (fs : FS) :
    RenderResultM × FS :=
  if takesSplitPath cfg tables then splitResult cfg tables outPath fs
  else
    let tr := renderMain env cfg md cancel tables outPath fs
    (tr.result, tr.fsOut)

/-- An identity markdown renderer (a legitimate caller-supplied
`markdown_to_html`). -/
def mdId : String → String := fun s => s

/-- A cancel flag that is never set. -/
def cancelNever : Nat → Bool := fun _ => false

/-- A cancel flag first observed set at the third row-boundary check. -/
def cancelFrom2 : Nat → Bool := fun i => decide (2 ≤ i)

/-- A concrete environment: empty opaque markup, successful final write. -/
def env0 : Env :=
  { headPieces := [], stickyHtml := "", bottomPieces := [], inlineTail := fun _ => ""
    writeOk := true, writeErr := "", writeResidue := "" }

/-- The same environment with a failing final-document writer. -/
def env0bad : Env :=
  { env0 with writeOk := false, writeErr := "disk full", writeResidue := "<!DOCTYPE html>" }

/-- Default config: no row limit, no split threshold, 4 workers. -/
def cfg0 : RenderConfig := {}

/-- Config with `table_row_limit = 2`. -/
def cfgLimit2 : RenderConfig := { table_row_limit := 2 }

/-- Config with `split_threshold = 8`. -/
def cfgSplit8 : RenderConfig := { split_threshold := 8 }

/-- A one-column table with three rows `a`, `b`, `c`. -/
def tabABC : Table := { cols := ["c"], rows := [[some "a"], [some "b"], [some "c"]] }

/-- A one-column table with five rows. -/
def tab5 (s : String) : Table := { cols := [s], rows := List.replicate 5 [some s] }

/-- A one-column table with ten rows. -/
def tab10 : Table := { cols := ["c"], rows := List.replicate 10 [some "x"] }

/-- A warning is one of the two fallback-explanation warnings of
`render_html` (lines 1263-1271). -/
def isFallbackWarning (w : Warning) : Prop :=
  w = warnNoFragments ∨ w = warnNoRows

theorem renderAllRows_length (md : String → String) (tableId : String) (idx : Nat)
    (labels : List String) :
    ∀ (rows : List (List (Option String))) (r : Nat),
      (renderAllRows md tableId idx labels r rows).length = rows.length := by
  intro rows
  induction rows with
  | nil => intro r; rfl
  | cons row rest ih => intro r; simp [renderAllRows, ih]

theorem rowLoop_no_break (md : String → String) (tableId : String) (idx : Nat)
    (labels : List String) (limit : Nat) (cancel : Nat → Bool)
    (hc : ∀ i, cancel i = false) :
    ∀ (rows : List (List (Option String))) (r : Nat),
      (limit = 0 ∨ r + rows.length ≤ limit) →
      rowLoop md tableId idx labels limit cancel r rows =
        { r_idx := r + rows.length
          pieces := renderAllRows md tableId idx labels r rows
          warnings := [] } := by
  intro rows
  induction rows with
  | nil => intro r _; simp [rowLoop, renderAllRows]
  | cons row rest ih =>
    intro r h
    have hlim : ¬ (limit ≠ 0 ∧ r + 1 > limit) := by
      rcases h with h | h
      · simp [h]
      · simp only [List.length_cons] at h
        intro hx
        omega
    have harg : limit = 0 ∨ r + 1 + rest.length ≤ limit := by
      rcases h with h | h
      · exact Or.inl h
      · simp only [List.length_cons] at h
        exact Or.inr (by omega)
    have hrec := ih (r + 1) harg
    simp only [rowLoop, hc r, Bool.false_eq_true, if_false, if_neg hlim, hrec,
      renderAllRows, List.length_cons]
    simp only [LoopOut.mk.injEq, and_true]
    omega

theorem rowLoop_limit_break (md : String → String) (tableId : String) (idx : Nat)
    (labels : List String) (limit : Nat) (cancel : Nat → Bool)
    (hc : ∀ i, cancel i = false) :
    ∀ (rows : List (List (Option String))) (r : Nat),
      limit ≠ 0 → r ≤ limit → limit < r + rows.length →
      rowLoop md tableId idx labels limit cancel r rows =
        { r_idx := limit + 1
          pieces := renderAllRows md tableId idx labels r (rows.take (limit - r))
          warnings := [limitWarning idx (limit + 1)] } := by
  intro rows
  induction rows with
  | nil =>
    intro r _ hr hlt
    simp only [List.length_nil, Nat.add_zero] at hlt
    omega
  | cons row rest ih =>
    intro r h0 hr hlt
    by_cases heq : r = limit
    · subst heq
      have : r ≠ 0 ∨ True := Or.inr trivial
      simp [rowLoop, hc r, h0, Nat.sub_self, renderAllRows]
    · have hrlt : r < limit := Nat.lt_of_le_of_ne hr heq
      have hlim : ¬ (limit ≠ 0 ∧ r + 1 > limit) := by intro hx; omega
      have hrec := ih (r + 1) h0 (by omega)
        (by simp only [List.length_cons] at hlt; omega)
      have htake : (row :: rest).take (limit - r) =
          row :: rest.take (limit - (r + 1)) := by
        have : limit - r = (limit - (r + 1)) + 1 := by omega
        simp [this]
      simp only [rowLoop, hc r, Bool.false_eq_true, if_false, if_neg hlim, hrec, htake,
        renderAllRows]

theorem rowLoop_cancel_break (md : String → String) (tableId : String) (idx : Nat)
    (labels : List String) (limit : Nat) (cancel : Nat → Bool) :
    ∀ (j : Nat) (rows : List (List (Option String))) (r : Nat),
      j < rows.length →
      (∀ i, i < j → cancel (r + i) = false) →
      cancel (r + j) = true →
      (limit = 0 ∨ r + j ≤ limit) →
      rowLoop md tableId idx labels limit cancel r rows =
        { r_idx := r + j
          pieces := renderAllRows md tableId idx labels r (rows.take j)
          warnings := [cancelWarning idx] } := by
  intro j
  induction j with
  | zero =>
    intro rows r hj _ hat _
    cases rows with
    | nil => simp at hj
    | cons row rest =>
      simp only [Nat.add_zero] at hat
      simp [rowLoop, hat, renderAllRows]
  | succ j ih =>
    intro rows r hj hbefore hat hlim
    cases rows with
    | nil => simp at hj
    | cons row rest =>
      have hc0 : cancel r = false := by
        have := hbefore 0 (Nat.succ_pos j)
        simpa using this
      have hlim2 : ¬ (limit ≠ 0 ∧ r + 1 > limit) := by
        rcases hlim with h | h
        · simp [h]
        · intro hx; omega
      have harg1 : j < rest.length := by
        simp only [List.length_cons] at hj
        omega
      have harg2 : ∀ i, i < j → cancel (r + 1 + i) = false := by
        intro i hi
        have := hbefore (i + 1) (by omega)
        simpa [Nat.add_assoc, Nat.add_comm 1 i] using this
      have harg3 : cancel (r + 1 + j) = true := by
        simpa [Nat.add_assoc, Nat.add_comm 1 j] using hat
      have harg4 : limit = 0 ∨ r + 1 + j ≤ limit := by
        rcases hlim with h | h
        · exact Or.inl h
        · exact Or.inr (by omega)
      have hrec := ih rest (r + 1) harg1 harg2 harg3 harg4
      simp only [rowLoop, hc0, Bool.false_eq_true, if_false, if_neg hlim2, hrec,
        List.take_succ_cons, renderAllRows]
      simp only [LoopOut.mk.injEq, and_true]
      omega

theorem rowLoop_warn_msgs (md : String → String) (tableId : String) (idx : Nat)
    (labels : List String) (limit : Nat) (cancel : Nat → Bool) :
    ∀ (rows : List (List (Option String))) (r : Nat) (w : Warning),
      w ∈ (rowLoop md tableId idx labels limit cancel r rows).warnings →
      w.msg = "canceled" ∨ w.msg = "table_row_limit exceeded" := by
  intro rows
  induction rows with
  | nil => intro r w hw; simp [rowLoop] at hw
  | cons row rest ih =>
    intro r w hw
    simp only [rowLoop] at hw
    split at hw
    · simp at hw
      subst hw
      exact Or.inl rfl
    · split at hw
      · simp at hw
        subst hw
        exact Or.inr rfl
      · exact ih (r + 1) w hw

theorem lookupF_set_self (fs : FS) (p c : String) :
    lookupF (setF fs p c) p = some c := by
  simp [setF, lookupF]

theorem lookupF_set_ne (fs : FS) (p q c : String) (h : p ≠ q) :
    lookupF (setF fs p c) q = lookupF fs q := by
  simp [setF, lookupF, h]

theorem lookupF_del_ne (fs : FS) (p q : String) (h : q ≠ p) :
    lookupF (delF fs p) q = lookupF fs q := by
  induction fs with
  | nil => rfl
  | cons kv fs ih =>
    obtain ⟨k, v⟩ := kv
    by_cases hk : k = p
    · subst hk
      have hkq : ¬ k = q := fun hq => h hq.symm
      simp [delF, lookupF, hkq, ih]
    · by_cases hq : k = q
      · subst hq
        simp [delF, lookupF, hk]
      · simp [delF, lookupF, hk, hq, ih]

theorem string_ne_append_tmp (p : String) : p ≠ p ++ ".tmp" := by
  intro h
  have h2 : p.data.length = (p ++ ".tmp").data.length := by rw [← h]
  have h4 : (".tmp" : String).data.length = 4 := by decide
  rw [String.data_append, List.length_append, h4] at h2
  omega

theorem lookupF_atomic_ok (fs : FS) (p c res : String) :
    lookupF (_default_write_atomic fs p true c res) p = some c := by
  show lookupF (delF (setF (setF fs (p ++ ".tmp") c) p c) (p ++ ".tmp")) p = some c
  rw [lookupF_del_ne _ _ _ (string_ne_append_tmp p)]
  exact lookupF_set_self _ _ _

theorem lookupF_atomic_fail (fs : FS) (p c res : String) :
    lookupF (_default_write_atomic fs p false c res) p = lookupF fs p := by
  show lookupF (setF fs (p ++ ".tmp") res) p = lookupF fs p
  exact lookupF_set_ne _ _ _ _ (fun h => string_ne_append_tmp p h.symm)

theorem splitGroupsAux_flatten {α : Type} (T : Nat) (rc : α → Nat) :
    ∀ (xs : List α) (r : Nat) (cur : List α),
      (splitGroupsAux T rc xs r cur).flatten = cur.reverse ++ xs := by
  intro xs
  induction xs with
  | nil =>
    intro r cur
    cases cur with
    | nil => simp [splitGroupsAux]
    | cons c cs => simp [splitGroupsAux]
  | cons x xs ih =>
    intro r cur
    by_cases h : r + rc x > T ∧ ¬ cur.isEmpty = true
    · simp only [splitGroupsAux, if_pos h, List.flatten_cons, ih]
      simp
    · simp only [splitGroupsAux, if_neg h, ih]
      simp

theorem splitGroups_flatten {α : Type} (T : Nat) (rc : α → Nat) (xs : List α) :
    (splitGroups T rc xs).flatten = xs := by
  simpa using splitGroupsAux_flatten T rc xs 0 []

theorem splitGroupsAux_ne_nil {α : Type} (T : Nat) (rc : α → Nat) :
    ∀ (xs : List α) (r : Nat) (cur : List α), cur ≠ [] →
      ∀ g ∈ splitGroupsAux T rc xs r cur, g ≠ [] := by
  intro xs
  induction xs with
  | nil =>
    intro r cur hcur g hg
    simp only [splitGroupsAux] at hg
    rw [if_neg (fun hh => hcur (List.isEmpty_iff.mp hh))] at hg
    simp only [List.mem_singleton] at hg
    subst hg
    simpa using hcur
  | cons x xs ih =>
    intro r cur hcur g hg
    simp only [splitGroupsAux] at hg
    split at hg
    · rcases List.mem_cons.mp hg with h | h
      · subst h; simpa using hcur
      · exact ih _ _ (by simp) g h
    · exact ih _ _ (by simp) g hg

theorem splitGroups_ne_nil {α : Type} (T : Nat) (rc : α → Nat) (xs : List α) :
    ∀ g ∈ splitGroups T rc xs, g ≠ [] := by
  intro g hg
  cases xs with
  | nil => simp [splitGroups, splitGroupsAux] at hg
  | cons x xs =>
    simp only [splitGroups, splitGroupsAux] at hg
    rw [if_neg (by simp)] at hg
    exact splitGroupsAux_ne_nil T rc xs (0 + rc x) [x] (by simp) g hg

theorem splitGroupsAux_bounded {α : Type} (T : Nat) (rc : α → Nat) :
    ∀ (xs : List α) (r : Nat) (cur : List α),
      r = (cur.map rc).sum → (2 ≤ cur.length → r ≤ T) →
      ∀ g ∈ splitGroupsAux T rc xs r cur, 2 ≤ g.length → (g.map rc).sum ≤ T := by
  intro xs
  induction xs with
  | nil =>
    intro r cur hr hinv g hg hlen
    simp only [splitGroupsAux] at hg
    by_cases hc : cur.isEmpty
    · rw [if_pos hc] at hg
      simp at hg
    · rw [if_neg hc] at hg
      simp only [List.mem_singleton] at hg
      subst hg
      rw [List.map_reverse, List.sum_reverse, ← hr]
      exact hinv (by simpa using hlen)
  | cons x xs ih =>
    intro r cur hr hinv g hg hlen
    simp only [splitGroupsAux] at hg
    split at hg
    case isTrue h =>
      rcases List.mem_cons.mp hg with h1 | h1
      · subst h1
        rw [List.map_reverse, List.sum_reverse, ← hr]
        exact hinv (by simpa using hlen)
      · have hx : rc x = (([x] : List α).map rc).sum := by simp
        have hv : 2 ≤ ([x] : List α).length → rc x ≤ T := by
          intro h2
          simp at h2
        exact ih (rc x) [x] hx hv g h1 hlen
    case isFalse h =>
      have hr2 : r + rc x = ((x :: cur).map rc).sum := by
        simp [hr, Nat.add_comm]
      have hv2 : 2 ≤ (x :: cur).length → r + rc x ≤ T := by
        intro hlen2
        by_cases hce : cur.isEmpty
        · rw [List.isEmpty_iff] at hce
          subst hce
          simp at hlen2
        · have h3 : ¬ (r + rc x > T) := fun hgt => h ⟨hgt, by simpa using hce⟩
          omega
      exact ih (r + rc x) (x :: cur) hr2 hv2 g hg hlen

theorem splitGroups_bounded {α : Type} (T : Nat) (rc : α → Nat) (xs : List α) :
    ∀ g ∈ splitGroups T rc xs, 2 ≤ g.length → (g.map rc).sum ≤ T := by
  intro g hg hlen
  refine splitGroupsAux_bounded T rc xs 0 [] (by simp) ?_ g hg hlen
  intro h2
  simp at h2

theorem splitGroupsAux_head {α : Type} (T : Nat) (rc : α → Nat) :
    ∀ (xs : List α) (r : Nat) (cur : List α), cur ≠ [] →
      ((splitGroupsAux T rc xs r cur).head?.bind List.head?) = cur.getLast? := by
  intro xs
  induction xs with
  | nil =>
    intro r cur hcur
    simp only [splitGroupsAux]
    rw [if_neg (fun hh => hcur (List.isEmpty_iff.mp hh))]
    simp [List.head?_reverse]
  | cons x xs ih =>
    intro r cur hcur
    simp only [splitGroupsAux]
    split
    · simp [List.head?_reverse]
    · rw [ih _ _ (by simp)]
      cases cur with
      | nil => exact absurd rfl hcur
      | cons c cs => simp [List.getLast?_cons_cons]

theorem splitGroupsAux_chain {α : Type} (T : Nat) (rc : α → Nat) :
    ∀ (xs : List α) (r : Nat) (cur : List α), r = (cur.map rc).sum →
      List.Chain' (fun g g' : List α =>
        T < (g.map rc).sum + ((g'.head?.map rc).getD 0)) (splitGroupsAux T rc xs r cur) := by
  intro xs
  induction xs with
  | nil =>
    intro r cur _
    simp only [splitGroupsAux]
    split
    · exact List.chain'_nil
    · exact List.chain'_singleton _
  | cons x xs ih =>
    intro r cur hr
    simp only [splitGroupsAux]
    split
    case isTrue h =>
      refine List.chain'_cons'.mpr ⟨?_, ih (rc x) [x] (by simp)⟩
      intro y hy
      have hh := splitGroupsAux_head T rc xs (rc x) [x] (by simp)
      rw [Option.mem_def] at hy
      rw [hy] at hh
      simp at hh
      rw [hh]
      simp only [Option.map_some', Option.getD_some, List.map_reverse, List.sum_reverse]
      omega
    case isFalse h =>
      exact ih (r + rc x) (x :: cur) (by simp [hr, Nat.add_comm])

theorem splitGroups_chain {α : Type} (T : Nat) (rc : α → Nat) (xs : List α) :
    List.Chain' (fun g g' : List α =>
      T < (g.map rc).sum + ((g'.head?.map rc).getD 0)) (splitGroups T rc xs) := by
  exact splitGroupsAux_chain T rc xs 0 [] (by simp)

theorem digitChar_props : ∀ m, m < 10 →
    (Nat.digitChar m).isWhitespace = false ∧ (Nat.digitChar m).toLower = Nat.digitChar m
      ∧ idAllowed (Nat.digitChar m) = true ∧ Nat.digitChar m ≠ '-' := by
  intro m h
  interval_cases m <;> exact ⟨by decide, by decide, by decide, by decide⟩

theorem toDigitsCore_props (P : Char → Prop) (hP : ∀ m, m < 10 → P (Nat.digitChar m)) :
    ∀ (fuel n : Nat) (acc : List Char), (∀ c ∈ acc, P c) →
      ∀ c ∈ Nat.toDigitsCore 10 fuel n acc, P c := by
  intro fuel
  induction fuel with
  | zero =>
    intro n acc hacc c hc
    simp only [Nat.toDigitsCore] at hc
    exact hacc c hc
  | succ fuel ih =>
    intro n acc hacc c hc
    simp only [Nat.toDigitsCore] at hc
    by_cases h0 : n / 10 = 0
    · rw [if_pos h0] at hc
      rcases List.mem_cons.mp hc with h | h
      · subst h
        exact hP _ (Nat.mod_lt _ (by decide))
      · exact hacc c h
    · rw [if_neg h0] at hc
      refine ih (n / 10) _ ?_ c hc
      intro d hd
      rcases List.mem_cons.mp hd with h | h
      · subst h
        exact hP _ (Nat.mod_lt _ (by decide))
      · exact hacc d h

theorem toDigits_props (P : Char → Prop) (hP : ∀ m, m < 10 → P (Nat.digitChar m)) (n : Nat) :
    ∀ c ∈ Nat.toDigits 10 n, P c := by
  intro c hc
  exact toDigitsCore_props P hP (n + 1) n [] (by simp) c hc

theorem toString_nat_data (n : Nat) : (toString n).data = Nat.toDigits 10 n := rfl

theorem dropWhile_eq_self_of_head (p : Char → Bool) :
    ∀ (l : List Char), (∀ c ∈ l, p c = false) → l.dropWhile p = l := by
  intro l h
  cases l with
  | nil => rfl
  | cons c cs => simp [List.dropWhile, h c (by simp)]

theorem pyStrip_eq_self (s : String) (h : ∀ c ∈ s.data, c.isWhitespace = false) :
    pyStrip s = s := by
  unfold pyStrip
  rw [dropWhile_eq_self_of_head _ _ h]
  rw [dropWhile_eq_self_of_head _ _ (fun c hc => h c (List.mem_reverse.mp hc))]
  rw [List.reverse_reverse]

theorem map_eq_self_of (f : Char → Char) :
    ∀ (l : List Char), (∀ c ∈ l, f c = c) → l.map f = l := by
  intro l
  induction l with
  | nil => intro _; rfl
  | cons c cs ih =>
    intro h
    simp only [List.map_cons]
    rw [h c (by simp), ih (fun d hd => h d (by simp [hd]))]

theorem subRunsGo_eq_self (p : Char → Bool) (r : Char) :
    ∀ (l : List Char), (∀ c ∈ l, p c = false) → ∀ b, subRunsGo p r b l = l := by
  intro l
  induction l with
  | nil => intro _ b; rfl
  | cons c cs ih =>
    intro h b
    simp only [subRunsGo]
    rw [if_neg (by simp [h c (by simp)])]
    rw [ih (fun d hd => h d (by simp [hd])) false]

theorem subRunsWith_eq_self (p : Char → Bool) (r : Char) :
    ∀ (l : List Char), (∀ c ∈ l, p c = false) → subRunsWith p r l = l := by
  intro l h
  exact subRunsGo_eq_self p r l h false

theorem stripDashes_eq_self :
    ∀ (l : List Char), (∀ c ∈ l, c ≠ '-') → stripDashes l = l := by
  intro l h
  unfold stripDashes
  rw [dropWhile_eq_self_of_head _ _ (fun c hc => decide_eq_false (h c hc))]
  rw [dropWhile_eq_self_of_head _ _
    (fun c hc => decide_eq_false (h c (List.mem_reverse.mp hc)))]
  rw [List.reverse_reverse]

theorem sanitizeIdCore_eq_self (l : List Char)
    (h : ∀ c ∈ l, idAllowed c = true ∧ c ≠ '-') :
    sanitizeIdCore l = l := by
  unfold sanitizeIdCore
  rw [subRunsWith_eq_self _ _ l (by intro c hc; simp [(h c hc).1])]
  rw [subRunsWith_eq_self _ _ l (fun c hc => decide_eq_false (h c hc).2)]
  exact stripDashes_eq_self l (fun c hc => (h c hc).2)

theorem fragTableId_lower (idx : Nat) : fragTableId idx = "table" ++ toString idx := by
  have hds := toDigits_props
    (fun c => c.isWhitespace = false ∧ c.toLower = c ∧ idAllowed c = true ∧ c ≠ '-')
    digitChar_props idx
  have hdata : ("Table" ++ toString idx).data = "Table".data ++ Nat.toDigits 10 idx := by
    rw [String.data_append, toString_nat_data]
  have hstrip : pyStrip ("Table" ++ toString idx) = "Table" ++ toString idx := by
    apply pyStrip_eq_self
    intro c hc
    rw [hdata] at hc
    rcases List.mem_append.mp hc with h | h
    · have e : "Table".data = ['T', 'a', 'b', 'l', 'e'] := rfl
      rw [e] at h
      fin_cases h <;> decide
    · exact (hds c h).1
  have hlower : pyLower ("Table" ++ toString idx) = "table" ++ toString idx := by
    unfold pyLower
    rw [hdata, List.map_append]
    have e1 : "Table".data.map Char.toLower = "table".data := by decide
    rw [e1, map_eq_self_of _ _ (fun c hc => (hds c hc).2.1)]
    rfl
  have hdata2 : ("table" ++ toString idx).data = "table".data ++ Nat.toDigits 10 idx := by
    rw [String.data_append, toString_nat_data]
  have hcore : sanitizeIdCore ("table" ++ toString idx).data
      = ("table" ++ toString idx).data := by
    apply sanitizeIdCore_eq_self
    intro c hc
    rw [hdata2] at hc
    rcases List.mem_append.mp hc with h | h
    · have e : "table".data = ['t', 'a', 'b', 'l', 'e'] := rfl
      rw [e] at h
      fin_cases h <;> exact ⟨by decide, by decide⟩
    · exact ⟨(hds c h).2.2.1, (hds c h).2.2.2⟩
  have hne : ("table" ++ toString idx) ≠ "" := by
    intro hh
    have h2 := congrArg String.data hh
    rw [hdata2] at h2
    simp at h2
  simp only [fragTableId, _sanitize_id, hstrip, hlower, hcore]
  rw [if_neg hne]

theorem fragment_lineCount (md : String → String) (cfg : RenderConfig)
    (cancel : Nat → Bool) (idx : Nat) (t : Table) :
    (_render_table_fragment_to_file md cfg cancel idx t).lineCount
      = pyLineCount (_render_table_fragment_to_file md cfg cancel idx t).content := rfl

theorem renderFragments_map_lineCount (md : String → String) (cfg : RenderConfig)
    (cancel : Nat → Bool) (i : Nat) (ts : List Table) :
    (renderFragments md cfg cancel i ts).map (fun fr => fr.lineCount)
      = (renderFragments md cfg cancel i ts).map (fun fr => pyLineCount fr.content) := by
  induction ts generalizing i with
  | nil => rfl
  | cons t ts ih =>
    simp only [renderFragments, List.map_cons]
    rw [ih, fragment_lineCount]

theorem fragment_warn_msgs (md : String → String) (cfg : RenderConfig)
    (cancel : Nat → Bool) (idx : Nat) (t : Table) :
    ∀ w ∈ (_render_table_fragment_to_file md cfg cancel idx t).warnings,
      w.msg = "canceled" ∨ w.msg = "table_row_limit exceeded" := by
  intro w hw
  exact rowLoop_warn_msgs md (fragTableId idx) idx (fragLabels md t.cols)
    cfg.table_row_limit cancel (_take_and_stream_rest t.rows) 0 w hw

theorem renderFragments_warn_msgs (md : String → String) (cfg : RenderConfig)
    (cancel : Nat → Bool) :
    ∀ (i : Nat) (ts : List Table) (w : Warning),
      w ∈ ((renderFragments md cfg cancel i ts).map (fun fr => fr.warnings)).flatten →
      w.msg = "canceled" ∨ w.msg = "table_row_limit exceeded" := by
  intro i ts
  induction ts generalizing i with
  | nil => intro w hw; simp [renderFragments] at hw
  | cons t ts ih =>
    intro w hw
    simp only [renderFragments, List.map_cons, List.flatten_cons, List.mem_append] at hw
    rcases hw with h | h
    · exact fragment_warn_msgs md cfg cancel i t w h
    · exact ih (i + 1) w h

theorem fragment_rowPieces (md : String → String) (cfg : RenderConfig)
    (cancel : Nat → Bool) (idx : Nat) (t : Table) :
    (_render_table_fragment_to_file md cfg cancel idx t).rowPieces
      = (rowLoop md (fragTableId idx) idx (fragLabels md t.cols)
          cfg.table_row_limit cancel 0 t.rows).pieces := rfl

theorem fragment_writtenRows (md : String → String) (cfg : RenderConfig)
    (cancel : Nat → Bool) (idx : Nat) (t : Table) :
    (_render_table_fragment_to_file md cfg cancel idx t).writtenRows
      = (rowLoop md (fragTableId idx) idx (fragLabels md t.cols)
          cfg.table_row_limit cancel 0 t.rows).pieces.length := rfl

theorem fragment_r_idx (md : String → String) (cfg : RenderConfig)
    (cancel : Nat → Bool) (idx : Nat) (t : Table) :
    (_render_table_fragment_to_file md cfg cancel idx t).r_idx
      = (rowLoop md (fragTableId idx) idx (fragLabels md t.cols)
          cfg.table_row_limit cancel 0 t.rows).r_idx := rfl

theorem fragment_warnings_eq (md : String → String) (cfg : RenderConfig)
    (cancel : Nat → Bool) (idx : Nat) (t : Table) :
    (_render_table_fragment_to_file md cfg cancel idx t).warnings
      = (rowLoop md (fragTableId idx) idx (fragLabels md t.cols)
          cfg.table_row_limit cancel 0 t.rows).warnings := rfl

theorem fragment_content (md : String → String) (cfg : RenderConfig)
    (cancel : Nat → Bool) (idx : Nat) (t : Table) :
    (_render_table_fragment_to_file md cfg cancel idx t).content
      = fragBeforeRows md idx t
        ++ String.join (rowLoop md (fragTableId idx) idx (fragLabels md t.cols)
            cfg.table_row_limit cancel 0 t.rows).pieces
        ++ fragCloseHtml (rowLoop md (fragTableId idx) idx (fragLabels md t.cols)
            cfg.table_row_limit cancel 0 t.rows).r_idx t.cols.length := rfl

/-- Claim C1 counterexample: a single table with 3 data rows and no limits
renders a fragment with 3 written rows whose single-line file re-reads as 1
line, and `render_html` reports `rows = 1`, not the 3 data rows actually
written — so `rows` is not the sum of written data rows. -/
theorem C1_counterexample :
    (render_html env0 cfg0 mdId cancelNever [tabABC] "out.html" []).1.rows = some 1
    ∧ ((renderFragments mdId cfg0 cancelNever 1 [tabABC]).map
        (fun fr => fr.writtenRows)).sum = 3
    ∧ (render_html env0 cfg0 mdId cancelNever [tabABC] "out.html" []).1.rows ≠
        some (((renderFragments mdId cfg0 cancelNever 1 [tabABC]).map
          (fun fr => fr.writtenRows)).sum) := by
  refine ⟨?_, ?_, ?_⟩ <;> decide

/-- Claim C1 (amended): for every render invocation that takes the fragment
path and whose final-document write succeeds, the `rows` field of the
returned result equals the sum, over all fragments, of the line count
obtained by re-reading each fragment file (Python line semantics) — which is
a measure of the fragment files, and in general differs from the number of
data rows written. -/
theorem C1_rows_is_sum_of_line_counts
    (env : Env) (cfg : RenderConfig) (md : String → String) (cancel : Nat → Bool)
    (tables : List Table) (outPath : String) (fs : FS)
    (hsplit : takesSplitPath cfg tables = false) (hw : env.writeOk = true) :
    (render_html env cfg md cancel tables outPath fs).1.rows =
      some (((renderFragments md cfg cancel 1 tables).map
        (fun fr => pyLineCount fr.content)).sum) := by
  simp only [render_html, hsplit, Bool.false_eq_true, if_false, renderMain, hw, if_true]
  rw [← renderFragments_map_lineCount]

/-- Witness for C1: the amended claim applied at a concrete input. -/
theorem C1_rows_is_sum_of_line_counts_witness :
    takesSplitPath cfg0 [tabABC] = false ∧ env0.writeOk = true ∧
    (render_html env0 cfg0 mdId cancelNever [tabABC] "out.html" []).1.rows =
      some (((renderFragments mdId cfg0 cancelNever 1 [tabABC]).map
        (fun fr => pyLineCount fr.content)).sum) :=
  ⟨by decide, rfl,
    C1_rows_is_sum_of_line_counts env0 cfg0 mdId cancelNever [tabABC] "out.html" []
      (by decide) rfl⟩

/-- Claim C2 counterexample: with `table_row_limit = 2` and a 3-row table,
exactly 2 rows are written and one warn warning names the table, but the
third component of the returned tuple is the fragment file's line count 1,
not the limit 2. -/
theorem C2_counterexample :
    (_render_table_fragment_to_file mdId cfgLimit2 cancelNever 1 tabABC).writtenRows = 2
    ∧ (_render_table_fragment_to_file mdId cfgLimit2 cancelNever 1 tabABC).warnings
        = [limitWarning 1 3]
    ∧ (_render_table_fragment_to_file mdId cfgLimit2 cancelNever 1 tabABC).lineCount = 1
    ∧ (_render_table_fragment_to_file mdId cfgLimit2 cancelNever 1 tabABC).lineCount ≠ 2 := by
  refine ⟨?_, ?_, ?_, ?_⟩ <;> decide

/-- Claim C2 (amended): for every table with more than `R` rows rendered
under `table_row_limit = R > 0` with no cancellation, the fragment's tbody
contains exactly `R` data rows (the first `R` rows in order) and exactly one
warn-level warning naming the table is recorded for the limit; the third
component of the returned tuple is the re-read line count of the fragment
file, not `R`. -/
theorem C2_row_limit_truncation (md : String → String) (cfg : RenderConfig)
    (cancel : Nat → Bool) (idx : Nat) (t : Table)
    (hl : cfg.table_row_limit ≠ 0) (hn : cfg.table_row_limit < t.rows.length)
    (hc : ∀ i, cancel i = false) :
    (_render_table_fragment_to_file md cfg cancel idx t).writtenRows = cfg.table_row_limit
    ∧ (_render_table_fragment_to_file md cfg cancel idx t).rowPieces
        = renderAllRows md (fragTableId idx) idx (fragLabels md t.cols) 0
            (t.rows.take cfg.table_row_limit)
    ∧ (_render_table_fragment_to_file md cfg cancel idx t).warnings
        = [limitWarning idx (cfg.table_row_limit + 1)]
    ∧ (_render_table_fragment_to_file md cfg cancel idx t).lineCount
        = pyLineCount (_render_table_fragment_to_file md cfg cancel idx t).content := by
  have hb := rowLoop_limit_break md (fragTableId idx) idx (fragLabels md t.cols)
    cfg.table_row_limit cancel hc t.rows 0 hl (Nat.zero_le _) (by omega)
  refine ⟨?_, ?_, ?_, fragment_lineCount md cfg cancel idx t⟩
  · rw [fragment_writtenRows, hb]
    simp only [renderAllRows_length, List.length_take, Nat.sub_zero]
    omega
  · rw [fragment_rowPieces, hb]
    simp
  · rw [fragment_warnings_eq, hb]

/-- Witness for C2: the amended claim applied at a concrete input. -/
theorem C2_row_limit_truncation_witness :
    cfgLimit2.table_row_limit ≠ 0
    ∧ cfgLimit2.table_row_limit < tabABC.rows.length
    ∧ (_render_table_fragment_to_file mdId cfgLimit2 cancelNever 1 tabABC).writtenRows = 2
    ∧ (_render_table_fragment_to_file mdId cfgLimit2 cancelNever 1 tabABC).warnings
        = [limitWarning 1 3] := by
  have h := C2_row_limit_truncation mdId cfgLimit2 cancelNever 1 tabABC
    (by decide) (by decide) (fun i => rfl)
  exact ⟨by decide, by decide, h.1, h.2.2.1⟩

/-- Claim C9: when the row limit stops iteration the footer counter `r_idx`
is `R + 1`, one more than the `R` data rows actually written (the
`table-summary` div ends the fragment with that counter); in all
non-truncated, non-cancelled renders the footer counter equals the number of
rows written. -/
theorem C9_footer_counter (md : String → String) (cfg : RenderConfig)
    (cancel : Nat → Bool) (idx : Nat) (t : Table) (hc : ∀ i, cancel i = false) :
    (_render_table_fragment_to_file md cfg cancel idx t).r_idx =
      (if cfg.table_row_limit ≠ 0 ∧ cfg.table_row_limit < t.rows.length
        then cfg.table_row_limit + 1 else t.rows.length)
    ∧ (_render_table_fragment_to_file md cfg cancel idx t).writtenRows =
      (if cfg.table_row_limit ≠ 0 ∧ cfg.table_row_limit < t.rows.length
        then cfg.table_row_limit else t.rows.length)
    ∧ (_render_table_fragment_to_file md cfg cancel idx t).content =
        fragBeforeRows md idx t
        ++ String.join (_render_table_fragment_to_file md cfg cancel idx t).rowPieces
        ++ fragCloseHtml (_render_table_fragment_to_file md cfg cancel idx t).r_idx
            t.cols.length := by
  by_cases h : cfg.table_row_limit ≠ 0 ∧ cfg.table_row_limit < t.rows.length
  · have hb := rowLoop_limit_break md (fragTableId idx) idx (fragLabels md t.cols)
      cfg.table_row_limit cancel hc t.rows 0 h.1 (Nat.zero_le _) (by omega)
    rw [if_pos h, if_pos h]
    refine ⟨?_, ?_, fragment_content md cfg cancel idx t⟩
    · rw [fragment_r_idx, hb]
    · rw [fragment_writtenRows, hb]
      simp only [renderAllRows_length, List.length_take, Nat.sub_zero]
      omega
  · have hcase : cfg.table_row_limit = 0 ∨ t.rows.length ≤ cfg.table_row_limit := by
      by_cases h0 : cfg.table_row_limit = 0
      · exact Or.inl h0
      · right
        rcases not_and_or.mp h with h1 | h1
        · exact absurd h0 (by simpa using h1)
        · omega
    have harg : cfg.table_row_limit = 0 ∨ 0 + t.rows.length ≤ cfg.table_row_limit := by
      rcases hcase with h1 | h1
      · exact Or.inl h1
      · exact Or.inr (by omega)
    have hb := rowLoop_no_break md (fragTableId idx) idx (fragLabels md t.cols)
      cfg.table_row_limit cancel hc t.rows 0 harg
    rw [if_neg h, if_neg h]
    refine ⟨?_, ?_, fragment_content md cfg cancel idx t⟩
    · rw [fragment_r_idx, hb]
      simp
    · rw [fragment_writtenRows, hb]
      simp [renderAllRows_length]

/-- Witness for C9: truncated case at a concrete input (limit 2, 3 rows:
footer counter 3 = written rows 2 plus one). -/
theorem C9_footer_counter_witness :
    (_render_table_fragment_to_file mdId cfgLimit2 cancelNever 1 tabABC).r_idx = 3
    ∧ (_render_table_fragment_to_file mdId cfgLimit2 cancelNever 1 tabABC).writtenRows = 2 := by
  have h := C9_footer_counter mdId cfgLimit2 cancelNever 1 tabABC (fun i => rfl)
  exact ⟨by rw [h.1]; decide, by rw [h.2.1]; decide⟩

/-- Claim C5: a fragment render that observes the shared cancellation flag at
row boundary `j` writes no further data rows (its tbody holds exactly the
first `j` rows), records exactly one warn-level cancellation warning for the
table, and the finalized fragment file still contains every row written
before the flag was observed (no rollback). -/
theorem C5_cancellation (md : String → String) (cfg : RenderConfig)
    (cancel : Nat → Bool) (idx : Nat) (t : Table) (j : Nat)
    (hj : j < t.rows.length)
    (hbefore : ∀ i, i < j → cancel i = false)
    (hat : cancel j = true)
    (hlim : cfg.table_row_limit = 0 ∨ j ≤ cfg.table_row_limit) :
    (_render_table_fragment_to_file md cfg cancel idx t).rowPieces
        = renderAllRows md (fragTableId idx) idx (fragLabels md t.cols) 0 (t.rows.take j)
    ∧ (_render_table_fragment_to_file md cfg cancel idx t).writtenRows = j
    ∧ (_render_table_fragment_to_file md cfg cancel idx t).warnings = [cancelWarning idx]
    ∧ (_render_table_fragment_to_file md cfg cancel idx t).content =
        fragBeforeRows md idx t
        ++ String.join (renderAllRows md (fragTableId idx) idx (fragLabels md t.cols) 0
            (t.rows.take j))
        ++ fragCloseHtml j t.cols.length := by
  have hb := rowLoop_cancel_break md (fragTableId idx) idx (fragLabels md t.cols)
    cfg.table_row_limit cancel j t.rows 0 hj (by simpa using hbefore) (by simpa using hat)
    (by rcases hlim with h | h; exacts [Or.inl h, Or.inr (by omega)])
  refine ⟨?_, ?_, ?_, ?_⟩
  · rw [fragment_rowPieces, hb]
  · rw [fragment_writtenRows, hb]
    simp only [renderAllRows_length, List.length_take]
    omega
  · rw [fragment_warnings_eq, hb]
  · rw [fragment_content, hb]
    simp

/-- Witness for C5: a flag first observed set at the third row-boundary
check of a 3-row table preserves exactly the first 2 rows and yields one
cancellation warning. -/
theorem C5_cancellation_witness :
    (_render_table_fragment_to_file mdId cfg0 cancelFrom2 1 tabABC).writtenRows = 2
    ∧ (_render_table_fragment_to_file mdId cfg0 cancelFrom2 1 tabABC).warnings
        = [cancelWarning 1] := by
  have h := C5_cancellation mdId cfg0 cancelFrom2 1 tabABC 2
    (by decide) (by decide) (by decide) (Or.inl rfl)
  exact ⟨h.2.1, h.2.2.1⟩

/-- Claim C3: when the split path is taken, the greedy grouping partitions
the tables into contiguous groups in input order (their concatenation is the
input, no group is empty, so no table is split across groups), a group that
received a second table never exceeds the threshold, every group boundary
was forced (the closed group plus the next group's first table would
overflow), the group row sums add up to the original total, the result lists
exactly one part file per group in order, and the emitted index document is
written with exactly those part links in order. -/
theorem C3_split_partition
    (env : Env) (cfg : RenderConfig) (md : String → String) (cancel : Nat → Bool)
    (tables : List Table) (outPath : String) (fs : FS)
    (hs : takesSplitPath cfg tables = true) :
    (splitGroups cfg.split_threshold tableRowCount tables).flatten = tables
    ∧ (∀ g ∈ splitGroups cfg.split_threshold tableRowCount tables, g ≠ [])
    ∧ (∀ g ∈ splitGroups cfg.split_threshold tableRowCount tables,
        2 ≤ g.length → (g.map tableRowCount).sum ≤ cfg.split_threshold)
    ∧ List.Chain' (fun g g' : List Table =>
        cfg.split_threshold < (g.map tableRowCount).sum
          + ((g'.head?.map tableRowCount).getD 0))
        (splitGroups cfg.split_threshold tableRowCount tables)
    ∧ ((splitGroups cfg.split_threshold tableRowCount tables).map
        (fun g => (g.map tableRowCount).sum)).sum = totalRowCount tables
    ∧ (render_html env cfg md cancel tables outPath fs).1.parts =
        some (partNames (pathStem outPath) (pathSuffix outPath)
          (splitGroups cfg.split_threshold tableRowCount tables).length)
    ∧ lookupF (render_html env cfg md cancel tables outPath fs).2
        (indexName (pathStem outPath)) =
        some (indexHtmlDoc (partNames (pathStem outPath) (pathSuffix outPath)
          (splitGroups cfg.split_threshold tableRowCount tables).length)) := by
  refine ⟨splitGroups_flatten _ _ _, splitGroups_ne_nil _ _ _,
    splitGroups_bounded _ _ _, splitGroups_chain _ _ _, ?_, ?_, ?_⟩
  · have h1 : ((splitGroups cfg.split_threshold tableRowCount tables).flatten.map
        tableRowCount).sum = totalRowCount tables := by
      rw [splitGroups_flatten]
      rfl
    rw [← h1, List.map_flatten, List.sum_flatten, List.map_map]
    rfl
  · simp only [render_html, hs, if_true, splitResult]
  · simp only [render_html, hs, if_true, splitResult]
    exact lookupF_atomic_ok _ _ _ _

/-- Witness for C3: 3 tables of 5, 5, 5 rows with threshold 8 split into
exactly the three singleton parts, named and linked in order. -/
theorem C3_split_partition_witness :
    takesSplitPath cfgSplit8 [tab5 "a", tab5 "b", tab5 "c"] = true
    ∧ splitGroups cfgSplit8.split_threshold tableRowCount [tab5 "a", tab5 "b", tab5 "c"]
        = [[tab5 "a"], [tab5 "b"], [tab5 "c"]]
    ∧ (render_html env0 cfgSplit8 mdId cancelNever [tab5 "a", tab5 "b", tab5 "c"]
        "out.html" []).1.parts
        = some ["out_part1.html", "out_part2.html", "out_part3.html"]
    ∧ (splitGroups cfgSplit8.split_threshold tableRowCount
        [tab5 "a", tab5 "b", tab5 "c"]).flatten = [tab5 "a", tab5 "b", tab5 "c"] :=
  ⟨by decide, by decide, by decide,
    (C3_split_partition env0 cfgSplit8 mdId cancelNever [tab5 "a", tab5 "b", tab5 "c"]
      "out.html" [] (by decide)).1⟩

/-- Claim C4 counterexample: with threshold 8 and one 10-row table, the
split path produces the single part `{table}` and a render of that part
(which is what the recursive call at line 1144 performs, with the same
config) takes the split path again, producing the sub-part
`out_part1_part1.html` — the part file is itself split further. -/
theorem C4_counterexample :
    takesSplitPath cfgSplit8 [tab10] = true
    ∧ splitGroups cfgSplit8.split_threshold tableRowCount [tab10] = [[tab10]]
    ∧ (render_html env0 cfgSplit8 mdId cancelNever [tab10] "out_part1.html" []).1.parts
        = some ["out_part1_part1.html"] := by
  refine ⟨?_, ?_, ?_⟩ <;> decide

/-- Claim C4 (amended): a part produced by the split path is rendered by a
recursive `render_html` call with the same config, and that call takes the
split path again (splitting the part further) exactly when the part's group
exceeds the threshold — which happens only when the group is a single table
whose row count alone exceeds the threshold.  Parts containing two or more
tables are never split further. -/
theorem C4_part_split_only_for_single_oversized_table
    (cfg : RenderConfig) (tables : List Table) (g : List Table)
    (hg : g ∈ splitGroups cfg.split_threshold tableRowCount tables)
    (hs : takesSplitPath cfg g = true) :
    ∃ t, g = [t] ∧ cfg.split_threshold < tableRowCount t := by
  have hsum : cfg.split_threshold < (g.map tableRowCount).sum := by
    simp only [takesSplitPath, totalRowCount, Bool.and_eq_true, decide_eq_true_eq] at hs
    exact hs.2
  have hne := splitGroups_ne_nil cfg.split_threshold tableRowCount tables g hg
  have hlen : ¬ (2 ≤ g.length) := by
    intro h2
    exact absurd (splitGroups_bounded cfg.split_threshold tableRowCount tables g hg h2)
      (by omega)
  cases g with
  | nil => exact absurd rfl hne
  | cons t ts =>
    cases ts with
    | nil =>
      refine ⟨t, rfl, ?_⟩
      simpa using hsum
    | cons t2 ts2 =>
      exact absurd (by simp only [List.length_cons]; omega) hlen

/-- Witness for C4 (amended): at threshold 8 the singleton group of the
10-row table is the only part, and it is re-split because its single table
exceeds the threshold. -/
theorem C4_part_split_only_for_single_oversized_table_witness :
    ([tab10] ∈ splitGroups cfgSplit8.split_threshold tableRowCount [tab10])
    ∧ takesSplitPath cfgSplit8 [tab10] = true
    ∧ ∃ t, [tab10] = [t] ∧ cfgSplit8.split_threshold < tableRowCount t :=
  ⟨by decide, by decide,
    C4_part_split_only_for_single_oversized_table cfgSplit8 [tab10] [tab10]
      (by decide) (by decide)⟩

/-- Claim C8 counterexample: the header-cell id for table 1, column 0 is
`table1-th-0` (the `_sanitize_id` of `Table1` is lowercased), not
`Table1-th-0` as the claimed form `Table{N}-th-{col}` requires. -/
theorem C8_counterexample :
    thId 1 0 = "table1-th-0" ∧ thId 1 0 ≠ "Table1-th-0" := by
  refine ⟨?_, ?_⟩ <;> decide

/-- Claim C8 (amended): each rendered header cell carries
`data-table-index` equal to `N - 1` and `data-col-index` equal to its
0-based column position, and its element id has the lowercased form
`table{N}-th-{col}` (the id passes through `_sanitize_id`, which lowercases,
so it is not `Table{N}-th-{col}`). -/
theorem C8_th_attrs (idx i : Nat) (colType col hdrHtml : String) :
    thId idx i = "table" ++ toString idx ++ "-th-" ++ toString i
    ∧ thCellHtml idx i colType col hdrHtml =
      "<th id=\"" ++ ("table" ++ toString idx ++ "-th-" ++ toString i)
        ++ "\" class=\"col-" ++ colType
        ++ "\" data-table-index=\"" ++ toString (idx - 1)
        ++ "\" data-col-index=\"" ++ toString i
        ++ "\" role=\"button\" aria-label=\""
        ++ _attr_escape ("Sort by " ++ htmlEscape (stripTagsStr col)) ++ "\">"
        ++ "<div class=\"th-with-sort\">"
        ++ "<div class=\"th-label\">" ++ hdrHtml ++ "</div>"
        ++ "<button type=\"button\" class=\"sort-btn sort-state-0\" data-table-index=\""
        ++ toString (idx - 1) ++ "\" data-col-index=\"" ++ toString i
        ++ "\" title=\"Toggle sort\" aria-label=\"Toggle sort\"><span class=\"sort-icon\" aria-hidden=\"true\"></span></button>"
        ++ "</div>" ++ "</th>" := by
  have h : thId idx i = "table" ++ toString idx ++ "-th-" ++ toString i := by
    unfold thId
    rw [fragTableId_lower]
  refine ⟨h, ?_⟩
  unfold thCellHtml
  rw [h]

theorem string_append_empty (s : String) : s ++ "" = s := by
  cases s with
  | mk l => exact congrArg String.mk (List.append_nil l)

theorem string_join_nil : String.join ([] : List String) = "" := rfl

theorem renderMain_proj (env : Env) (cfg : RenderConfig) (md : String → String)
    (cancel : Nat → Bool) (tables : List Table) (outPath : String) (fs : FS) :
    (renderMain env cfg md cancel tables outPath fs).fragments
        = renderFragments md cfg cancel 1 tables
    ∧ (renderMain env cfg md cancel tables outPath fs).needFallback
        = ((renderFragments md cfg cancel 1 tables).isEmpty
            || (renderFragments md cfg cancel 1 tables).all
                (fun fr => !(_frag_contains_rows fr.content)))
    ∧ (renderMain env cfg md cancel tables outPath fs).warningsBeforeWrite
        = ((renderFragments md cfg cancel 1 tables).map (fun fr => fr.warnings)).flatten
          ++ (if (renderFragments md cfg cancel 1 tables).isEmpty then [warnNoFragments]
              else if (renderFragments md cfg cancel 1 tables).all
                  (fun fr => !(_frag_contains_rows fr.content)) then [warnNoRows]
              else [])
    ∧ (renderMain env cfg md cancel tables outPath fs).result.warnings
        = (renderMain env cfg md cancel tables outPath fs).warningsBeforeWrite
          ++ (if env.writeOk then [] else [writeFailWarning env.writeErr])
    ∧ (renderMain env cfg md cancel tables outPath fs).bodyHtml
        = (if (renderMain env cfg md cancel tables outPath fs).needFallback
           then joinLn (inlinePiecesGo env 1 tables)
           else String.join ((renderMain env cfg md cancel tables outPath fs).fragments.map
             (fun fr => fr.content))) := by
  refine ⟨rfl, rfl, rfl, ?_, rfl⟩
  by_cases hw : env.writeOk
  · simp only [renderMain, hw, if_true, List.append_nil]
  · simp only [renderMain, hw, Bool.false_eq_true, if_false]

theorem frag_warns_not_fallback (md : String → String) (cfg : RenderConfig)
    (cancel : Nat → Bool) (tables : List Table) :
    ∀ w ∈ ((renderFragments md cfg cancel 1 tables).map (fun fr => fr.warnings)).flatten,
      ¬ isFallbackWarning w := by
  intro w hw hfb
  have hm := renderFragments_warn_msgs md cfg cancel 1 tables w hw
  rcases hfb with he | he
  · subst he
    rcases hm with h | h <;> exact absurd h (by decide)
  · subst he
    rcases hm with h | h <;> exact absurd h (by decide)

theorem writeFail_not_fallback (e : String) :
    ¬ isFallbackWarning (writeFailWarning e) := by
  intro hfb
  rcases hfb with he | he
  · have h2 : ("error" : String) = "warn" := congrArg Warning.level he
    exact absurd h2 (by decide)
  · have h2 : ("error" : String) = "warn" := congrArg Warning.level he
    exact absurd h2 (by decide)

/-- Claim C6: `render_html` takes the sequential inline fallback path if and
only if either no fragments were produced or every produced fragment
contains no data rows (no `<tbody>` followed by a `<tr>`); in exactly these
cases a warning explaining the fallback is recorded; otherwise the assembled
body stream-copies the fragment files in index order. -/
theorem C6_fallback_iff
    (env : Env) (cfg : RenderConfig) (md : String → String) (cancel : Nat → Bool)
    (tables : List Table) (outPath : String) (fs : FS) :
    ((renderMain env cfg md cancel tables outPath fs).needFallback = true ↔
      ((renderMain env cfg md cancel tables outPath fs).fragments = [] ∨
        ∀ fr ∈ (renderMain env cfg md cancel tables outPath fs).fragments,
          _frag_contains_rows fr.content = false))
    ∧ ((∃ w ∈ (renderMain env cfg md cancel tables outPath fs).result.warnings,
          isFallbackWarning w) ↔
        (renderMain env cfg md cancel tables outPath fs).needFallback = true)
    ∧ ((renderMain env cfg md cancel tables outPath fs).bodyHtml =
        if (renderMain env cfg md cancel tables outPath fs).needFallback
        then joinLn (inlinePiecesGo env 1 tables)
        else String.join ((renderMain env cfg md cancel tables outPath fs).fragments.map
          (fun fr => fr.content))) := by
  obtain ⟨hfr, hnf, hwbw, hrw, hbody⟩ := renderMain_proj env cfg md cancel tables outPath fs
  refine ⟨?_, ?_, ?_⟩
  · rw [hnf, hfr]
    simp [List.isEmpty_iff, List.all_eq_true]
  · rw [hrw, hwbw, hnf]
    constructor
    · rintro ⟨w, hwm, hfb⟩
      rcases List.mem_append.mp hwm with h1 | h1
      · rcases List.mem_append.mp h1 with h2 | h2
        · exact absurd hfb (frag_warns_not_fallback md cfg cancel tables w h2)
        · by_cases he : (renderFragments md cfg cancel 1 tables).isEmpty
          · simp [he]
          · by_cases ha : (renderFragments md cfg cancel 1 tables).all
                (fun fr => !(_frag_contains_rows fr.content))
            · simp [he, ha]
            · simp [he, ha] at h2
      · by_cases hw2 : env.writeOk
        · simp [hw2] at h1
        · simp [hw2] at h1
          subst h1
          exact absurd hfb (writeFail_not_fallback env.writeErr)
    · intro hnft
      by_cases he : (renderFragments md cfg cancel 1 tables).isEmpty
      · exact ⟨warnNoFragments, by simp [he], Or.inl rfl⟩
      · have ha : (renderFragments md cfg cancel 1 tables).all
            (fun fr => !(_frag_contains_rows fr.content)) = true := by
          have hor : (renderFragments md cfg cancel 1 tables).isEmpty = true
              ∨ (renderFragments md cfg cancel 1 tables).all
                  (fun fr => !(_frag_contains_rows fr.content)) = true := by
            simpa using hnft
          rcases hor with h | h
          · exact absurd h he
          · exact h
        exact ⟨warnNoRows, by simp [he, ha], Or.inr rfl⟩
  · rw [hbody]

/-- Claim C7: if writing the final document raises, `render_html` returns a
structured result: all warnings accumulated before the write plus an
error-level `write_failed` warning, the `tables`/`rows` values `None` and no
`output` key, and the destination file is left untouched by the failed
atomic write (only the temporary sibling was written). -/
theorem C7_write_failure_structured
    (env : Env) (cfg : RenderConfig) (md : String → String) (cancel : Nat → Bool)
    (tables : List Table) (outPath : String) (fs : FS)
    (hsplit : takesSplitPath cfg tables = false)
    (hw : env.writeOk = false) :
    (render_html env cfg md cancel tables outPath fs).1.output = none
    ∧ (render_html env cfg md cancel tables outPath fs).1.tables = none
    ∧ (render_html env cfg md cancel tables outPath fs).1.rows = none
    ∧ (render_html env cfg md cancel tables outPath fs).1.warnings =
        (renderMain env cfg md cancel tables outPath fs).warningsBeforeWrite
          ++ [writeFailWarning env.writeErr]
    ∧ lookupF (render_html env cfg md cancel tables outPath fs).2 outPath
        = lookupF fs outPath := by
  simp only [render_html, hsplit, Bool.false_eq_true, if_false]
  refine ⟨?_, ?_, ?_, ?_, ?_⟩
  · simp only [renderMain, hw, Bool.false_eq_true, if_false]
  · simp only [renderMain, hw, Bool.false_eq_true, if_false]
  · simp only [renderMain, hw, Bool.false_eq_true, if_false]
  · simp only [renderMain, hw, Bool.false_eq_true, if_false]
  · simp only [renderMain, hw]
    exact lookupF_atomic_fail _ _ _ _

/-- Witness for C7: a failing final write on an empty input returns no
output, `rows = None`, and leaves the (empty) filesystem without the
destination file. -/
theorem C7_write_failure_structured_witness :
    takesSplitPath cfg0 ([] : List Table) = false
    ∧ env0bad.writeOk = false
    ∧ (render_html env0bad cfg0 mdId cancelNever [] "out.html" []).1.output = none
    ∧ (render_html env0bad cfg0 mdId cancelNever [] "out.html" []).1.rows = none
    ∧ lookupF (render_html env0bad cfg0 mdId cancelNever [] "out.html" []).2 "out.html"
        = none := by
  have h := C7_write_failure_structured env0bad cfg0 mdId cancelNever [] "out.html" []
    (by decide) rfl
  exact ⟨by decide, rfl, h.1, h.2.2.1, by rw [h.2.2.2.2]; rfl⟩

/-- Claim C10: for an empty input table sequence, `render_html` dispatches
to the normal (non-split) path, sizes the worker pool at 1, takes the
fallback branch with the `no fragments produced` warning, emits zero
table-of-contents entries, writes a complete document (head, sticky header,
empty TOC, script blocks, closing markup) to the output path, and returns
`tables = 0`, `rows = 0` with the output path set. -/
theorem C10_empty_input
    (env : Env) (cfg : RenderConfig) (md : String → String) (cancel : Nat → Bool)
    (outPath : String) (fs : FS) (hw : env.writeOk = true) :
    render_html env cfg md cancel [] outPath fs =
      ((renderMain env cfg md cancel [] outPath fs).result,
        (renderMain env cfg md cancel [] outPath fs).fsOut)
    ∧ (renderMain env cfg md cancel [] outPath fs).workerCount = 1
    ∧ (renderMain env cfg md cancel [] outPath fs).needFallback = true
    ∧ warnNoFragments ∈ (renderMain env cfg md cancel [] outPath fs).result.warnings
    ∧ (renderMain env cfg md cancel [] outPath fs).tocItems = []
    ∧ (renderMain env cfg md cancel [] outPath fs).result.tables = some 0
    ∧ (renderMain env cfg md cancel [] outPath fs).result.rows = some 0
    ∧ (renderMain env cfg md cancel [] outPath fs).result.output = some outPath
    ∧ lookupF (renderMain env cfg md cancel [] outPath fs).fsOut outPath
        = some (renderMain env cfg md cancel [] outPath fs).document
    ∧ (renderMain env cfg md cancel [] outPath fs).document =
        joinLn env.headPieces ++ env.stickyHtml ++ "\n" ++ tocHtml [] ++ "\n"
          ++ joinLn env.bottomPieces ++ "</div></body></html>\n" := by
  refine ⟨?_, ?_, ?_, ?_, ?_, ?_, ?_, ?_, ?_, ?_⟩
  · simp [render_html, takesSplitPath, totalRowCount]
  · simp only [renderMain]
    unfold workerCount
    have h0 : ([] : List Table).length = 0 := rfl
    rw [h0, if_pos rfl]
    omega
  · simp [renderMain, renderFragments]
  · simp [renderMain, renderFragments, hw]
  · simp [renderMain, renderFragments, inlineTocGo]
  · simp [renderMain, hw]
  · simp [renderMain, renderFragments, hw]
  · simp [renderMain, hw]
  · simp only [renderMain, hw]
    exact lookupF_atomic_ok _ _ _ _
  · simp [renderMain, renderFragments, inlineTocGo, inlinePiecesGo, joinLn,
      string_join_nil, string_append_empty]

/-- Witness for C10: the empty-input behavior at a concrete environment. -/
theorem C10_empty_input_witness :
    env0.writeOk = true
    ∧ (renderMain env0 cfg0 mdId cancelNever [] "out.html" []).workerCount = 1
    ∧ (renderMain env0 cfg0 mdId cancelNever [] "out.html" []).result.rows = some 0
    ∧ (renderMain env0 cfg0 mdId cancelNever [] "out.html" []).result.output
        = some "out.html" := by
  have h := C10_empty_input env0 cfg0 mdId cancelNever "out.html" [] rfl
  exact ⟨rfl, h.2.1, h.2.2.2.2.2.2.1, h.2.2.2.2.2.2.2.1⟩

end CoreRender
